import Mathlib

/-!
# Verification of the extent-canvas view-transform and gesture engine

Shallow embedding of the pure coordinate math (`src/math.ts`) and the
gesture/state-machine logic (`src/hook.ts`, with the variant entry points
`src/index.tsx` and the unnamed variant file) of the `extent-canvas`
repository.  JavaScript numbers are modelled as real numbers `ℝ`; note that
in this model division by zero yields `0` (where IEEE arithmetic would yield
`±Infinity` or `NaN`), which we use as the degenerate sentinel when a claim
is about division by zero.  `Math.round` is modelled by `round : ℝ → ℤ`,
which like JavaScript rounds halves up.

Side effects are modelled explicitly: drawing-context operations performed by
`draw` become a list of `DrawAction`s in source order, and the callback
notifications issued by `setView`/`setViewBox` become a list of
`EngineEvent`s in source order.  The gesture handlers (`handleMouseMove`,
`handleWheel`, `handleTouchStart`, `handleTouchMove`) are modelled by their
mutation of the engine state (`posRef`, `prevPosRef`, `viewRef`,
`isDragging`, `prevPinchDistance`).
-/

noncomputable section

/-- `ExtentCanvasPoint` from `src/types.ts`: a 2-D point. -/
@[ext]
structure ExtentCanvasPoint where
  x : ℝ
  y : ℝ

/-- `ExtentCanvasView` from `src/types.ts`: offset plus uniform scale. -/
@[ext]
structure ExtentCanvasView where
  offset : ExtentCanvasPoint
  scale : ℝ

/-- `ExtentCanvasViewBox` from `src/types.ts`; the values produced by
`calculateViewBox` are results of `Math.round`, so the fields are integers. -/
@[ext]
structure ExtentCanvasViewBox where
  top : ℤ
  bottom : ℤ
  left : ℤ
  right : ℤ

/-- `ExtentCanvasSize` from `src/types.ts`: the canvas raster size. -/
structure ExtentCanvasSize where
  width : ℝ
  height : ℝ

/-- `ExtentCanvasTouch` from `src/types.ts`: one touch point. -/
structure ExtentCanvasTouch where
  clientX : ℝ
  clientY : ℝ

/-- The parts of a `CanvasRenderingContext2D` the engine reads: the canvas
raster size (`context.canvas.width/height`) and the top-left corner of
`context.canvas.getBoundingClientRect()`. -/
structure CanvasContext where
  width : ℝ
  height : ℝ
  left : ℝ
  top : ℝ

/-- `add` from `src/math.ts`. -/
def add (p1 p2 : ExtentCanvasPoint) : ExtentCanvasPoint :=
  { x := p1.x + p2.x, y := p1.y + p2.y }

/-- `diff` from `src/math.ts`. -/
def diff (p1 p2 : ExtentCanvasPoint) : ExtentCanvasPoint :=
  { x := p1.x - p2.x, y := p1.y - p2.y }

/-- `scale` from `src/math.ts`: divides both components by `s`. -/
def scale (p : ExtentCanvasPoint) (s : ℝ) : ExtentCanvasPoint :=
  { x := p.x / s, y := p.y / s }

/-- `getCursorOffset` from `src/math.ts`. -/
def getCursorOffset (clientX clientY : ℝ) (context : CanvasContext) : ExtentCanvasPoint :=
  diff { x := clientX, y := clientY } { x := context.left, y := context.top }

/-- `calculateViewBox` from `src/math.ts`. -/
def calculateViewBox (size : ExtentCanvasSize) (view : ExtentCanvasView) :
    ExtentCanvasViewBox :=
  { top := round (-view.offset.y)
    bottom := round (-view.offset.y + size.height / view.scale)
    left := round (-view.offset.x)
    right := round (-view.offset.x + size.width / view.scale) }

/-- `calculateCanvasView` from `src/math.ts` (box edges cast from the integer
view box). -/
def calculateCanvasView (size : ExtentCanvasSize) (box : ExtentCanvasViewBox) :
    ExtentCanvasView :=
  let boxWidth : ℝ := (box.right : ℝ) - (box.left : ℝ)
  let boxHeight : ℝ := (box.bottom : ℝ) - (box.top : ℝ)
  let s : ℝ := min (size.width / boxWidth) (size.height / boxHeight)
  { scale := s
    offset := { x := -((box.left : ℝ) + boxWidth / 2 - size.width / (2 * s))
                y := -((box.top : ℝ) + boxHeight / 2 - size.height / (2 * s)) } }

/-- The unrounded view box edges: `calculateViewBox` is exactly these edges
with `Math.round` applied to each (used to state the round-trip tolerance of
View→ViewBox→View). -/
structure RealViewBox where
  top : ℝ
  bottom : ℝ
  left : ℝ
  right : ℝ

/-- The exact (unrounded) view box of a view, from the body of
`calculateViewBox` in `src/math.ts` with the four `Math.round` calls removed. -/
def exactViewBox (size : ExtentCanvasSize) (view : ExtentCanvasView) :
    RealViewBox :=
  { top := -view.offset.y
    bottom := -view.offset.y + size.height / view.scale
    left := -view.offset.x
    right := -view.offset.x + size.width / view.scale }

/-- The body of `calculateCanvasView` from `src/math.ts` applied to real box
edges (the function is the same formula; the repository only ever feeds it
integer edges). -/
def calculateCanvasViewR (size : ExtentCanvasSize) (box : RealViewBox) :
    ExtentCanvasView :=
  let boxWidth : ℝ := box.right - box.left
  let boxHeight : ℝ := box.bottom - box.top
  let s : ℝ := min (size.width / boxWidth) (size.height / boxHeight)
  { scale := s
    offset := { x := -(box.left + boxWidth / 2 - size.width / (2 * s))
                y := -(box.top + boxHeight / 2 - size.height / (2 * s)) } }

/-- `getTouchDistance` from `src/math.ts`: Euclidean distance. -/
def getTouchDistance (t1 t2 : ExtentCanvasTouch) : ℝ :=
  Real.sqrt ((t1.clientX - t2.clientX) ^ 2 + (t1.clientY - t2.clientY) ^ 2)

/-- Result record of `getTouchCoordinates` from `src/math.ts`. -/
structure TouchCoordinates where
  x : ℝ
  y : ℝ
  t1 : ExtentCanvasTouch
  t2 : ExtentCanvasTouch

/-- `getTouchCoordinates` from `src/math.ts`: the first two touches (missing
entries default to `(0,0)`) and their centroid; with exactly two touches the
divisor is 2, otherwise 1. -/
def getTouchCoordinates (touches : List ExtentCanvasTouch) : TouchCoordinates :=
  let t1 := touches.getD 0 { clientX := 0, clientY := 0 }
  let t2 := touches.getD 1 { clientX := 0, clientY := 0 }
  let touchCount : ℝ := if touches.length = 2 then 2 else 1
  { x := (t1.clientX + t2.clientX) / touchCount
    y := (t1.clientY + t2.clientY) / touchCount
    t1 := t1
    t2 := t2 }

/-- `ExtentCanvasViewChangeReason` from `src/types.ts`. -/
inductive ExtentCanvasViewChangeReason where
  | move
  | zoom
  | set
deriving DecidableEq

/-- One drawing-context operation performed by `draw`, in source order. -/
inductive DrawAction where
  | resetTransform
  | beforeDraw
  | scaleCtx (sx sy : ℝ)
  | translate (x y : ℝ)
  | clearRect (x y w h : ℝ)
  | drawCallback

/-- One observable side effect of `setView`/`setViewBox`: a callback
notification or a drawing-context operation of the triggered redraw. -/
inductive EngineEvent where
  | viewChange (view : ExtentCanvasView) (reason : ExtentCanvasViewChangeReason)
  | viewBoxChange (box : ExtentCanvasViewBox) (reason : ExtentCanvasViewChangeReason)
  | drawAction (action : DrawAction)

/-- The engine's mutable state: `posRef`, `prevPosRef`, `viewRef` and the
listener-scope variables `isDragging` and `prevPinchDistance` of
`src/hook.ts`. -/
structure EngineState where
  pos : ExtentCanvasPoint
  prevPos : ExtentCanvasPoint
  view : ExtentCanvasView
  isDragging : Bool
  prevPinchDistance : ℝ

/-- The configuration options of `useExtentCanvas` the gesture handlers read. -/
structure EngineConfig where
  zoomSensitivity : ℝ
  minScale : Option ℝ
  maxScale : Option ℝ

/-- The state right after `useExtentCanvas` initialises its refs and the
listener effect runs: `posRef = prevPosRef = initialPosition`,
`viewRef = {offset: initialPosition, scale: initialScale}`,
`isDragging = false`, `prevPinchDistance = 0` (`src/hook.ts`). -/
def initialEngineState (initialPosition : ExtentCanvasPoint) (initialScale : ℝ) :
    EngineState :=
  { pos := initialPosition
    prevPos := initialPosition
    view := { offset := initialPosition, scale := initialScale }
    isDragging := false
    prevPinchDistance := 0 }

/-- `draw` from `src/hook.ts` (identical in the unnamed variant file): the
list of drawing-context operations performed, in source order.  Returns `[]`
when the context is not initialised or the canvas has zero width or height.
The variant in `src/index.tsx` differs only in the `clearRect` extent; see
`Index.draw`. -/
def draw (context : Option CanvasContext) (view : ExtentCanvasView) : List DrawAction :=
  match context with
  | none => []
  | some ctx =>
    if ctx.width = 0 ∨ ctx.height = 0 then []
    else
      [DrawAction.resetTransform,
       DrawAction.beforeDraw,
       DrawAction.scaleCtx view.scale view.scale,
       DrawAction.translate view.offset.x view.offset.y,
       DrawAction.clearRect (-view.offset.x - ctx.width) (-view.offset.y - ctx.height)
         (ctx.width / view.scale) (ctx.height / view.scale),
       DrawAction.drawCallback]

/-- `setView` from `src/hook.ts` (identical in `src/index.tsx` up to which
`draw` is invoked): replaces the view, notifies `onViewChange` and
`onViewBoxChange` with reason `set`, then redraws. -/
def setView (context : Option CanvasContext) (st : EngineState) (view : ExtentCanvasView) :
    EngineState × List EngineEvent :=
  match context with
  | none => (st, [])
  | some ctx =>
    let st' := { st with view := view }
    (st',
     [EngineEvent.viewChange view ExtentCanvasViewChangeReason.set,
      EngineEvent.viewBoxChange (calculateViewBox { width := ctx.width, height := ctx.height } view)
        ExtentCanvasViewChangeReason.set]
      ++ (draw context st'.view).map EngineEvent.drawAction)

/-- `setViewBox` from `src/hook.ts`: converts via `calculateCanvasView`, then
performs the same notify-and-redraw sequence as `setView`. -/
def setViewBox (context : Option CanvasContext) (st : EngineState)
    (viewBox : ExtentCanvasViewBox) : EngineState × List EngineEvent :=
  match context with
  | none => (st, [])
  | some ctx =>
    let size : ExtentCanvasSize := { width := ctx.width, height := ctx.height }
    let st' := { st with view := calculateCanvasView size viewBox }
    (st',
     [EngineEvent.viewChange st'.view ExtentCanvasViewChangeReason.set,
      EngineEvent.viewBoxChange (calculateViewBox size st'.view)
        ExtentCanvasViewChangeReason.set]
      ++ (draw context st'.view).map EngineEvent.drawAction)

/-- `handleMouseDown` from `src/hook.ts`. -/
def handleMouseDown (context : CanvasContext) (st : EngineState) (clientX clientY : ℝ) :
    EngineState :=
  { st with isDragging := true, pos := getCursorOffset clientX clientY context }

/-- `handleMouseMove` from `src/hook.ts`: while dragging, records the previous
cursor offset, computes the new one, and pans the offset by the screen delta
divided by the current scale (state mutation only; the `move` notifications
and the redraw carry no further state change). -/
def handleMouseMove (context : CanvasContext) (st : EngineState) (clientX clientY : ℝ) :
    EngineState :=
  if st.isDragging then
    let prevPos := st.pos
    let pos := getCursorOffset clientX clientY context
    let newDiff := scale (diff pos prevPos) st.view.scale
    { st with pos := pos, prevPos := prevPos
              view := { st.view with offset := add st.view.offset newDiff } }
  else st

/-- `handleMouseUp` from `src/hook.ts`. -/
def handleMouseUp (st : EngineState) : EngineState :=
  { st with isDragging := false }

/-- The `unclamedScale` computed by `handleWheel` in `src/hook.ts` (source
spelling kept): `absDelta = 1 - |deltaY| / zoomSensitivity`; multiply when
`deltaY > 0`, divide otherwise. -/
def unclamedScale (cfg : EngineConfig) (st : EngineState) (deltaY : ℝ) : ℝ :=
  let absDelta : ℝ := 1 - |deltaY| / cfg.zoomSensitivity
  if deltaY > 0 then st.view.scale * absDelta else st.view.scale / absDelta

/-- `handleWheel` from `src/hook.ts` (identical in both variant files):
records the cursor offset, computes the clamped target scale and the
anchor-preserving offset, and commits both. -/
def handleWheel (cfg : EngineConfig) (context : CanvasContext) (st : EngineState)
    (clientX clientY deltaY : ℝ) : EngineState :=
  let prevPos := st.pos
  let pos := getCursorOffset clientX clientY context
  let target := unclamedScale cfg st deltaY
  let clampedScale := max (min target (cfg.maxScale.getD target)) (cfg.minScale.getD target)
  let newOffset := diff st.view.offset
    (diff (scale pos st.view.scale) (scale pos clampedScale))
  { st with pos := pos, prevPos := prevPos
            view := { offset := newOffset, scale := clampedScale } }

/-- `handleTouchStart` from `src/hook.ts` (also attached to `touchend`):
records the touch centroid as current and previous position and, with more
than one touch, the pinch-baseline distance. -/
def handleTouchStart (context : CanvasContext) (st : EngineState)
    (touches : List ExtentCanvasTouch) : EngineState :=
  let tc := getTouchCoordinates touches
  let pos := getCursorOffset tc.x tc.y context
  { st with pos := pos, prevPos := pos
            prevPinchDistance :=
              if touches.length > 1 then getTouchDistance tc.t1 tc.t2
              else st.prevPinchDistance }

/-- The `pinchRatio` local of `handleTouchMove` in `src/hook.ts`: `1` unless
more than one touch is active, in which case the ratio of the current pinch
distance to the stored baseline `prevPinchDistance`. -/
def pinchRatio (st : EngineState) (touches : List ExtentCanvasTouch) : ℝ :=
  if touches.length > 1 then
    getTouchDistance (getTouchCoordinates touches).t1 (getTouchCoordinates touches).t2 /
      st.prevPinchDistance
  else 1

/-- `handleTouchMove` from `src/hook.ts` (identical in both variant files).
Note the source order: `posRef` is assigned the new centroid offset first and
`prevPosRef` is then assigned `posRef`, so `newDiff` is computed from two
equal points. -/
def handleTouchMove (cfg : EngineConfig) (context : CanvasContext) (st : EngineState)
    (touches : List ExtentCanvasTouch) : EngineState :=
  let tc := getTouchCoordinates touches
  let pos := getCursorOffset tc.x tc.y context
  let prevPos := pos
  let newDiff := scale (diff pos prevPos) st.view.scale
  let offset1 := add st.view.offset newDiff
  let newPinchDistance : ℝ :=
    if touches.length > 1 then getTouchDistance tc.t1 tc.t2 else st.prevPinchDistance
  let pinchedScale := st.view.scale * pinchRatio st touches
  let newScale := max (min (st.view.scale * pinchRatio st touches) (cfg.maxScale.getD pinchedScale))
    (cfg.minScale.getD pinchedScale)
  let newOffset := diff offset1 (diff (scale pos st.view.scale) (scale pos newScale))
  { st with pos := pos, prevPos := prevPos
            view := { offset := newOffset, scale := newScale }
            prevPinchDistance := newPinchDistance }

namespace Index

/-- `draw` from `src/index.tsx`: identical to the top-level `draw` except
that the `clearRect` extent is `dimension + dimension / scale` instead of
`dimension / scale`. -/
def draw (context : Option CanvasContext) (view : ExtentCanvasView) : List DrawAction :=
  match context with
  | none => []
  | some ctx =>
    if ctx.width = 0 ∨ ctx.height = 0 then []
    else
      [DrawAction.resetTransform,
       DrawAction.beforeDraw,
       DrawAction.scaleCtx view.scale view.scale,
       DrawAction.translate view.offset.x view.offset.y,
       DrawAction.clearRect (-view.offset.x - ctx.width) (-view.offset.y - ctx.height)
         (ctx.width + ctx.width / view.scale) (ctx.height + ctx.height / view.scale),
       DrawAction.drawCallback]

/-- `setView` from `src/index.tsx`: same notify-then-redraw sequence as the
top-level `setView`, invoking this file's `draw`. -/
def setView (context : Option CanvasContext) (st : EngineState) (view : ExtentCanvasView) :
    EngineState × List EngineEvent :=
  match context with
  | none => (st, [])
  | some ctx =>
    let st' := { st with view := view }
    (st',
     [EngineEvent.viewChange view ExtentCanvasViewChangeReason.set,
      EngineEvent.viewBoxChange (calculateViewBox { width := ctx.width, height := ctx.height } view)
        ExtentCanvasViewChangeReason.set]
      ++ (Index.draw context st'.view).map EngineEvent.drawAction)

end Index

namespace Part000

/-- `setView` from the unnamed variant file (`src/unnamed/part_000`, lines
61–69): replaces the view and notifies `onViewChange` with reason `set`, but
— unlike every other variant — performs no `onViewBoxChange` notification
before redrawing.  Its `draw` is identical to the top-level `draw`. -/
def setView (context : Option CanvasContext) (st : EngineState) (view : ExtentCanvasView) :
    EngineState × List EngineEvent :=
  match context with
  | none => (st, [])
  | some _ =>
    let st' := { st with view := view }
    (st',
     [EngineEvent.viewChange view ExtentCanvasViewChangeReason.set]
      ++ (draw context st'.view).map EngineEvent.drawAction)

end Part000

/-- C1: for every wheel zoom and every pinch zoom, with `pos` the anchor
position in surface pixels (cursor offset for wheel, touch centroid for
pinch), `s` the scale before and `s'` the committed clamped scale after, the
committed offset satisfies `offset' = offset - (pos/s - pos/s')`, and
consequently the logical point under `pos` is unchanged:
`pos/s - offset = pos/s' - offset'`. -/
theorem zoom_anchor_preservation
    (cfg : EngineConfig) (ctx : CanvasContext) (st : EngineState)
    (clientX clientY deltaY : ℝ) (touches : List ExtentCanvasTouch)
    (hs : 0 < st.view.scale)
    (hw : 0 < (handleWheel cfg ctx st clientX clientY deltaY).view.scale)
    (ht : 0 < (handleTouchMove cfg ctx st touches).view.scale) :
    ((handleWheel cfg ctx st clientX clientY deltaY).view.offset =
        diff st.view.offset
          (diff (scale (getCursorOffset clientX clientY ctx) st.view.scale)
            (scale (getCursorOffset clientX clientY ctx)
              (handleWheel cfg ctx st clientX clientY deltaY).view.scale))
      ∧ diff (scale (getCursorOffset clientX clientY ctx) st.view.scale) st.view.offset =
          diff (scale (getCursorOffset clientX clientY ctx)
              (handleWheel cfg ctx st clientX clientY deltaY).view.scale)
            (handleWheel cfg ctx st clientX clientY deltaY).view.offset)
    ∧ ((handleTouchMove cfg ctx st touches).view.offset =
        diff st.view.offset
          (diff (scale (getCursorOffset (getTouchCoordinates touches).x
                (getTouchCoordinates touches).y ctx) st.view.scale)
            (scale (getCursorOffset (getTouchCoordinates touches).x
                (getTouchCoordinates touches).y ctx)
              (handleTouchMove cfg ctx st touches).view.scale))
      ∧ diff (scale (getCursorOffset (getTouchCoordinates touches).x
              (getTouchCoordinates touches).y ctx) st.view.scale) st.view.offset =
          diff (scale (getCursorOffset (getTouchCoordinates touches).x
                (getTouchCoordinates touches).y ctx)
              (handleTouchMove cfg ctx st touches).view.scale)
            (handleTouchMove cfg ctx st touches).view.offset) := by
  refine ⟨⟨?_, ?_⟩, ?_, ?_⟩ <;>
    apply ExtentCanvasPoint.ext <;>
      simp only [handleWheel, handleTouchMove, diff, scale, add] <;> ring

/-- Witness for `zoom_anchor_preservation` at a concrete wheel/pinch input
(surface 100×100, initial view, `deltaY = 160`, a single touch at (50,50)). -/
theorem zoom_anchor_preservation_witness :
    (handleWheel ⟨320, none, none⟩ ⟨100, 100, 0, 0⟩ (initialEngineState ⟨0, 0⟩ 1)
        100 100 160).view.offset =
      diff (initialEngineState ⟨0, 0⟩ 1).view.offset
        (diff (scale (getCursorOffset 100 100 ⟨100, 100, 0, 0⟩)
            (initialEngineState ⟨0, 0⟩ 1).view.scale)
          (scale (getCursorOffset 100 100 ⟨100, 100, 0, 0⟩)
            (handleWheel ⟨320, none, none⟩ ⟨100, 100, 0, 0⟩ (initialEngineState ⟨0, 0⟩ 1)
              100 100 160).view.scale)) :=
  (zoom_anchor_preservation ⟨320, none, none⟩ ⟨100, 100, 0, 0⟩ (initialEngineState ⟨0, 0⟩ 1)
    100 100 160 [⟨50, 50⟩]
    (by norm_num [initialEngineState])
    (by simp only [handleWheel, unclamedScale, initialEngineState]
        rw [if_pos (show (160:ℝ) > 0 by norm_num)]
        norm_num)
    (by simp only [handleTouchMove, pinchRatio, getTouchCoordinates, initialEngineState,
          List.length]
        norm_num)).1.1

/-- C2: after every wheel and every touch-move event, if both `minScale` and
`maxScale` are configured with `minScale ≤ maxScale` the committed scale lies
in `[minScale, maxScale]`; and for an arbitrary configuration the committed
scale equals `max (min target (maxScale ?? target)) (minScale ?? target)`
where `target` is the unclamped target scale, so an unset bound never
constrains. -/
theorem zoom_scale_clamped
    (cfg cfgB : EngineConfig) (ctx : CanvasContext) (st : EngineState)
    (clientX clientY deltaY : ℝ) (touches : List ExtentCanvasTouch)
    (m M : ℝ) (hm : cfgB.minScale = some m) (hM : cfgB.maxScale = some M) (hmM : m ≤ M) :
    (m ≤ (handleWheel cfgB ctx st clientX clientY deltaY).view.scale
      ∧ (handleWheel cfgB ctx st clientX clientY deltaY).view.scale ≤ M
      ∧ m ≤ (handleTouchMove cfgB ctx st touches).view.scale
      ∧ (handleTouchMove cfgB ctx st touches).view.scale ≤ M)
    ∧ ((handleWheel cfg ctx st clientX clientY deltaY).view.scale =
        max (min (unclamedScale cfg st deltaY)
            (cfg.maxScale.getD (unclamedScale cfg st deltaY)))
          (cfg.minScale.getD (unclamedScale cfg st deltaY)))
    ∧ ((handleTouchMove cfg ctx st touches).view.scale =
        max (min (st.view.scale * pinchRatio st touches)
            (cfg.maxScale.getD (st.view.scale * pinchRatio st touches)))
          (cfg.minScale.getD (st.view.scale * pinchRatio st touches))) := by
  refine ⟨⟨?_, ?_, ?_, ?_⟩, rfl, rfl⟩ <;>
    simp only [handleWheel, handleTouchMove, hm, hM, Option.getD_some]
  · exact le_max_right _ _
  · exact max_le (le_trans (min_le_right _ _) le_rfl) hmM
  · exact le_max_right _ _
  · exact max_le (le_trans (min_le_right _ _) le_rfl) hmM

/-- Witness for `zoom_scale_clamped` with bounds `[1, 2]` configured, at a
concrete wheel input. -/
theorem zoom_scale_clamped_witness :
    1 ≤ (handleWheel ⟨320, some 1, some 2⟩ ⟨100, 100, 0, 0⟩ (initialEngineState ⟨0, 0⟩ 1)
        100 100 160).view.scale :=
  (zoom_scale_clamped ⟨320, none, none⟩ ⟨320, some 1, some 2⟩ ⟨100, 100, 0, 0⟩
    (initialEngineState ⟨0, 0⟩ 1) 100 100 160 [⟨50, 50⟩] 1 2 rfl rfl
    (by norm_num)).1.1

/-- C7: for every mouse-move while dragging at scale `s`, if the cursor
offset moved by `(dx, dy)` screen pixels relative to the previously recorded
position, the view offset changes by exactly `(dx/s, dy/s)` and the scale is
unchanged. -/
theorem drag_offset_delta (ctx : CanvasContext) (st : EngineState) (clientX clientY : ℝ)
    (hd : st.isDragging = true) :
    (handleMouseMove ctx st clientX clientY).view.offset.x =
      st.view.offset.x + ((getCursorOffset clientX clientY ctx).x - st.pos.x) / st.view.scale
    ∧ (handleMouseMove ctx st clientX clientY).view.offset.y =
      st.view.offset.y + ((getCursorOffset clientX clientY ctx).y - st.pos.y) / st.view.scale
    ∧ (handleMouseMove ctx st clientX clientY).view.scale = st.view.scale := by
  refine ⟨?_, ?_, ?_⟩ <;> simp [handleMouseMove, hd, add, diff, scale]

/-- Witness for `drag_offset_delta`: a drag started by `handleMouseDown` at
(100,100) and moved to (150,130). -/
theorem drag_offset_delta_witness :
    (handleMouseMove ⟨800, 600, 0, 0⟩
        (handleMouseDown ⟨800, 600, 0, 0⟩ (initialEngineState ⟨0, 0⟩ 1) 100 100)
        150 130).view.scale =
      (handleMouseDown ⟨800, 600, 0, 0⟩ (initialEngineState ⟨0, 0⟩ 1) 100 100).view.scale :=
  (drag_offset_delta ⟨800, 600, 0, 0⟩
    (handleMouseDown ⟨800, 600, 0, 0⟩ (initialEngineState ⟨0, 0⟩ 1) 100 100)
    150 130 rfl).2.2

/-- C9: with an uninitialised drawing context, `setView`, `setViewBox` and
`draw` (in every variant) return immediately with no state change and no
callback notification; and with zero surface width or height `draw` performs
no drawing operation. -/
theorem uninitialized_and_zero_size_noop (st : EngineState) (v : ExtentCanvasView)
    (box : ExtentCanvasViewBox) (ctx : CanvasContext)
    (h : ctx.width = 0 ∨ ctx.height = 0) :
    setView none st v = (st, []) ∧ setViewBox none st box = (st, []) ∧ draw none v = []
    ∧ Index.setView none st v = (st, []) ∧ Index.draw none v = []
    ∧ Part000.setView none st v = (st, [])
    ∧ draw (some ctx) v = [] ∧ Index.draw (some ctx) v = [] := by
  refine ⟨rfl, rfl, rfl, rfl, rfl, rfl, ?_, ?_⟩
  · simp only [draw]
    rw [if_pos h]
  · simp only [Index.draw]
    rw [if_pos h]

/-- Witness for `uninitialized_and_zero_size_noop` at a zero-width surface. -/
theorem uninitialized_and_zero_size_noop_witness :
    draw (some ⟨0, 50, 0, 0⟩) { offset := ⟨0, 0⟩, scale := 1 } = [] :=
  (uninitialized_and_zero_size_noop (initialEngineState ⟨0, 0⟩ 1)
    { offset := ⟨0, 0⟩, scale := 1 } ⟨0, 0, 0, 0⟩ ⟨0, 50, 0, 0⟩
    (Or.inl rfl)).2.2.2.2.2.2.1

/-- C5 counterexample: in the unnamed variant (`src/unnamed/part_000`),
`setView` with an initialised context emits no `onViewBoxChange`
notification, refuting the claim that every entry-point variant does. -/
theorem part000_setView_omits_viewBoxChange :
    EngineEvent.viewBoxChange
        (calculateViewBox { width := 100, height := 100 } { offset := ⟨0, 0⟩, scale := 1 })
        ExtentCanvasViewChangeReason.set ∉
      (Part000.setView (some ⟨100, 100, 0, 0⟩) (initialEngineState ⟨0, 0⟩ 1)
        { offset := ⟨0, 0⟩, scale := 1 }).2 := by
  norm_num [Part000.setView, draw]
  exact ⟨nofun, nofun, nofun, nofun, nofun, nofun, nofun⟩

/-- C5 amended: with an initialised context, the `src/hook.ts` and
`src/index.tsx` variants of `setView` replace the stored view wholesale,
notify `onViewChange` with reason `set`, notify `onViewBoxChange` with the
view box derived from the new view and reason `set`, and then redraw, in
that order; the `src/unnamed/part_000` variant replaces the view and
notifies `onViewChange` but omits the `onViewBoxChange` notification before
redrawing. -/
theorem setView_notify_then_redraw (ctx : CanvasContext) (st : EngineState)
    (v : ExtentCanvasView) :
    ((setView (some ctx) st v).1.view = v
      ∧ (setView (some ctx) st v).2 =
        [EngineEvent.viewChange v ExtentCanvasViewChangeReason.set,
         EngineEvent.viewBoxChange (calculateViewBox { width := ctx.width, height := ctx.height } v)
           ExtentCanvasViewChangeReason.set]
          ++ (draw (some ctx) v).map EngineEvent.drawAction)
    ∧ ((Index.setView (some ctx) st v).1.view = v
      ∧ (Index.setView (some ctx) st v).2 =
        [EngineEvent.viewChange v ExtentCanvasViewChangeReason.set,
         EngineEvent.viewBoxChange (calculateViewBox { width := ctx.width, height := ctx.height } v)
           ExtentCanvasViewChangeReason.set]
          ++ (Index.draw (some ctx) v).map EngineEvent.drawAction)
    ∧ ((Part000.setView (some ctx) st v).1.view = v
      ∧ (Part000.setView (some ctx) st v).2 =
        [EngineEvent.viewChange v ExtentCanvasViewChangeReason.set]
          ++ (draw (some ctx) v).map EngineEvent.drawAction) :=
  ⟨⟨rfl, rfl⟩, ⟨rfl, rfl⟩, rfl, rfl⟩

/-- C6 counterexample: a wheel event with `deltaY = zoomSensitivity = 320`
and no `minScale` configured drives the committed scale to `0`, refuting
strict positivity for every `deltaY`. -/
theorem wheel_scale_not_positive_counterexample :
    ¬ (0 < (handleWheel ⟨320, none, none⟩ ⟨100, 100, 0, 0⟩ (initialEngineState ⟨0, 0⟩ 1)
        100 100 320).view.scale) := by
  simp only [handleWheel, unclamedScale, initialEngineState]
  rw [if_pos (show (320:ℝ) > 0 by norm_num)]
  norm_num

/-- C6 amended: the committed wheel scale is strictly positive provided
`|deltaY| < zoomSensitivity`, `zoomSensitivity > 0`, the prior scale is
positive, and `maxScale` is positive when configured (with
`|deltaY| ≥ zoomSensitivity` and no `minScale` the scale can reach `0` or
below, as the counterexample shows). -/
theorem wheel_scale_positive_amended
    (cfg : EngineConfig) (ctx : CanvasContext) (st : EngineState)
    (clientX clientY deltaY : ℝ)
    (hsens : 0 < cfg.zoomSensitivity) (hdy : |deltaY| < cfg.zoomSensitivity)
    (hs : 0 < st.view.scale)
    (hmax : ∀ M, cfg.maxScale = some M → 0 < M) :
    0 < (handleWheel cfg ctx st clientX clientY deltaY).view.scale := by
  have habs : 0 < 1 - |deltaY| / cfg.zoomSensitivity := by
    have h1 : |deltaY| / cfg.zoomSensitivity < 1 := (div_lt_one hsens).mpr hdy
    linarith
  have htarget : 0 < unclamedScale cfg st deltaY := by
    unfold unclamedScale
    split_ifs
    · exact mul_pos hs habs
    · exact div_pos hs habs
  simp only [handleWheel]
  refine lt_of_lt_of_le ?_ (le_max_left _ _)
  cases hM : cfg.maxScale with
  | none => simpa [hM, min_self] using htarget
  | some M =>
    simp only [hM, Option.getD_some]
    exact lt_min htarget (hmax M hM)

/-- Witness for `wheel_scale_positive_amended` at `deltaY = 160`,
sensitivity 320, no configured bounds. -/
theorem wheel_scale_positive_amended_witness :
    0 < (handleWheel ⟨320, none, none⟩ ⟨100, 100, 0, 0⟩ (initialEngineState ⟨0, 0⟩ 1)
        100 100 160).view.scale :=
  wheel_scale_positive_amended ⟨320, none, none⟩ ⟨100, 100, 0, 0⟩
    (initialEngineState ⟨0, 0⟩ 1) 100 100 160
    (by norm_num) (by norm_num) (by norm_num [initialEngineState])
    (fun M h => Option.noConfusion h)

/-- C3 (code evaluation at the failing input): a single-touch move from
centroid (100,100) to (150,130) at scale 1 with offset (0,0) leaves the
offset at (0,0) and the scale at 1 — the pan delta is computed from
`posRef` and `prevPosRef` *after* both were assigned the new centroid, so it
is always zero and touch panning is a no-op, where the claim (matching
`handleMouseMove`) expects the offset to change by (50,30). -/
theorem touch_pan_is_noop :
    (handleTouchMove ⟨320, none, none⟩ ⟨800, 600, 0, 0⟩
        (handleTouchStart ⟨800, 600, 0, 0⟩ (initialEngineState ⟨0, 0⟩ 1) [⟨100, 100⟩])
        [⟨150, 130⟩]).view.offset = ExtentCanvasPoint.mk 0 0
    ∧ (handleTouchMove ⟨320, none, none⟩ ⟨800, 600, 0, 0⟩
        (handleTouchStart ⟨800, 600, 0, 0⟩ (initialEngineState ⟨0, 0⟩ 1) [⟨100, 100⟩])
        [⟨150, 130⟩]).view.scale = 1 := by
  constructor
  · apply ExtentCanvasPoint.ext <;>
      norm_num [handleTouchMove, handleTouchStart, pinchRatio, getTouchCoordinates,
        getCursorOffset, initialEngineState, diff, add, scale]
  · norm_num [handleTouchMove, handleTouchStart, pinchRatio, getTouchCoordinates,
      getCursorOffset, initialEngineState, diff, add, scale]

/-- From the spec's words (§4.3): the clear rectangle with origin `(cx, cy)`
and extent `(cw, ch)` (in the post-transform logical coordinates) covers the
entire visible logical rectangle
`[-offset.x, -offset.x + width/scale] × [-offset.y, -offset.y + height/scale]`. -/
def clearRectCoversVisible (cx cy cw ch : ℝ) (size : ExtentCanvasSize)
    (v : ExtentCanvasView) : Prop :=
  ∀ px py : ℝ,
    -v.offset.x ≤ px → px ≤ -v.offset.x + size.width / v.scale →
    -v.offset.y ≤ py → py ≤ -v.offset.y + size.height / v.scale →
    cx ≤ px ∧ px ≤ cx + cw ∧ cy ≤ py ∧ py ≤ cy + ch

/-- C4 counterexample: on a 100×100 surface with offset (0,0) and scale 1,
the `src/hook.ts` `draw` passes `clearRect` the rectangle with origin
(-100,-100) and extent 100×100, which does not cover the visible logical
rectangle `[0,100] × [0,100]` (the point (50,50) is visible but outside it). -/
theorem clearRect_coverage_counterexample :
    DrawAction.clearRect (-100) (-100) 100 100 ∈
      draw (some ⟨100, 100, 0, 0⟩) { offset := ⟨0, 0⟩, scale := 1 }
    ∧ ¬ clearRectCoversVisible (-100) (-100) 100 100
        { width := 100, height := 100 } { offset := ⟨0, 0⟩, scale := 1 } := by
  constructor
  · norm_num [draw]
  · intro h
    simp only [clearRectCoversVisible] at h
    obtain ⟨-, h2, -, -⟩ := h 50 50 (by norm_num) (by norm_num) (by norm_num) (by norm_num)
    norm_num at h2

/-- C4 amended: the clear rectangle of the `src/index.tsx` `draw` (extent
`dimension + dimension/scale`) covers the entire visible logical rectangle;
the `src/hook.ts`/`src/unnamed/part_000` `draw` passes the same-origin
rectangle with extent only `dimension/scale` (the visible rectangle
translated by `(-width, -height)`), which the counterexample shows does not
cover it. -/
theorem clearRect_coverage_amended (ctx : CanvasContext) (v : ExtentCanvasView)
    (hw : 0 ≤ ctx.width) (hh : 0 ≤ ctx.height) (hnz : ¬(ctx.width = 0 ∨ ctx.height = 0)) :
    DrawAction.clearRect (-v.offset.x - ctx.width) (-v.offset.y - ctx.height)
        (ctx.width + ctx.width / v.scale) (ctx.height + ctx.height / v.scale) ∈
      Index.draw (some ctx) v
    ∧ clearRectCoversVisible (-v.offset.x - ctx.width) (-v.offset.y - ctx.height)
        (ctx.width + ctx.width / v.scale) (ctx.height + ctx.height / v.scale)
        { width := ctx.width, height := ctx.height } v
    ∧ DrawAction.clearRect (-v.offset.x - ctx.width) (-v.offset.y - ctx.height)
        (ctx.width / v.scale) (ctx.height / v.scale) ∈ draw (some ctx) v := by
  refine ⟨?_, ?_, ?_⟩
  · simp [Index.draw, hnz]
  · intro px py h1 h2 h3 h4
    exact ⟨by linarith, by linarith, by linarith, by linarith⟩
  · simp [draw, hnz]

/-- Witness for `clearRect_coverage_amended` on a 100×100 surface with
offset (0,0) and scale 1. -/
theorem clearRect_coverage_amended_witness :
    DrawAction.clearRect
        (-(ExtentCanvasView.mk ⟨0, 0⟩ 1).offset.x - 100)
        (-(ExtentCanvasView.mk ⟨0, 0⟩ 1).offset.y - 100)
        (100 + 100 / (ExtentCanvasView.mk ⟨0, 0⟩ 1).scale)
        (100 + 100 / (ExtentCanvasView.mk ⟨0, 0⟩ 1).scale) ∈
      Index.draw (some ⟨100, 100, 0, 0⟩) (ExtentCanvasView.mk ⟨0, 0⟩ 1) :=
  (clearRect_coverage_amended ⟨100, 100, 0, 0⟩ (ExtentCanvasView.mk ⟨0, 0⟩ 1)
    (by norm_num) (by norm_num) (by norm_num)).1

/-- C8: the View→ViewBox→View round trip reproduces the view up to the
rounding of the intermediate box edges: `calculateViewBox` is exactly the
unrounded edge box with each edge rounded, `calculateCanvasView` is the
real-edge conversion applied to the integer edges, and the real-edge
conversion applied to the *unrounded* box reproduces the view exactly. -/
theorem view_viewbox_roundtrip (size : ExtentCanvasSize) (v : ExtentCanvasView)
    (box : ExtentCanvasViewBox)
    (hw : 0 < size.width) (hh : 0 < size.height) (hs : 0 < v.scale) :
    calculateViewBox size v =
      { top := round (exactViewBox size v).top
        bottom := round (exactViewBox size v).bottom
        left := round (exactViewBox size v).left
        right := round (exactViewBox size v).right }
    ∧ calculateCanvasView size box =
      calculateCanvasViewR size
        { top := (box.top : ℝ), bottom := (box.bottom : ℝ)
          left := (box.left : ℝ), right := (box.right : ℝ) }
    ∧ calculateCanvasViewR size (exactViewBox size v) = v := by
  have hw' : size.width ≠ 0 := ne_of_gt hw
  have hh' : size.height ≠ 0 := ne_of_gt hh
  have hs' : v.scale ≠ 0 := ne_of_gt hs
  refine ⟨rfl, rfl, ?_⟩
  simp only [calculateCanvasViewR, exactViewBox]
  have e1 : size.width / ((-v.offset.x + size.width / v.scale) - -v.offset.x) = v.scale := by
    rw [show (-v.offset.x + size.width / v.scale) - -v.offset.x = size.width / v.scale by ring]
    field_simp
  have e2 : size.height / ((-v.offset.y + size.height / v.scale) - -v.offset.y) = v.scale := by
    rw [show (-v.offset.y + size.height / v.scale) - -v.offset.y = size.height / v.scale by ring]
    field_simp
  rw [e1, e2, min_self]
  refine ExtentCanvasView.ext ?_ rfl
  refine ExtentCanvasPoint.ext ?_ ?_
  · show -(-v.offset.x + ((-v.offset.x + size.width / v.scale) - -v.offset.x) / 2 -
      size.width / (2 * v.scale)) = v.offset.x
    field_simp
    ring
  · show -(-v.offset.y + ((-v.offset.y + size.height / v.scale) - -v.offset.y) / 2 -
      size.height / (2 * v.scale)) = v.offset.y
    field_simp
    ring

/-- Witness for `view_viewbox_roundtrip` on an 800×600 surface with the unit
view. -/
theorem view_viewbox_roundtrip_witness :
    calculateCanvasViewR ⟨800, 600⟩ (exactViewBox ⟨800, 600⟩ (ExtentCanvasView.mk ⟨0, 0⟩ 1)) =
      ExtentCanvasView.mk ⟨0, 0⟩ 1 :=
  (view_viewbox_roundtrip ⟨800, 600⟩ (ExtentCanvasView.mk ⟨0, 0⟩ 1) ⟨0, 0, 0, 0⟩
    (by norm_num) (by norm_num) (by norm_num)).2.2

/-- C10: starting from the initial state (`prevPinchDistance = 0`), a
`touchstart` with a single touch leaves the pinch baseline at 0, and a
following `touchmove` with two touches then divides the pinch distance by
the zero baseline; the committed scale is degenerate (0 in this model, where
division by zero yields 0; `Infinity` in JavaScript) — no guard in the
touch-move handler prevents this. -/
theorem pinch_division_by_zero_reachable :
    (handleTouchStart ⟨800, 600, 0, 0⟩ (initialEngineState ⟨0, 0⟩ 1)
        [⟨10, 10⟩]).prevPinchDistance = 0
    ∧ (handleTouchMove ⟨320, none, none⟩ ⟨800, 600, 0, 0⟩
        (handleTouchStart ⟨800, 600, 0, 0⟩ (initialEngineState ⟨0, 0⟩ 1) [⟨10, 10⟩])
        [⟨0, 0⟩, ⟨3, 4⟩]).view.scale = 0 := by
  constructor
  · simp [handleTouchStart, initialEngineState]
  · norm_num [handleTouchMove, handleTouchStart, pinchRatio, getTouchCoordinates,
      getCursorOffset, initialEngineState, diff, add, scale]
